import Mathlib

/-!
Verification development for the `forallpeople` SI-units library.

The repository snapshot contains only documentation (README and docs); the
Python implementation (`Physical`, `Environment`, the formatter) is not part
of the snapshot.  Every definition below is therefore modelled from the
specification, over exact rationals.

Rational arithmetic is expressed through kernel-computable wrappers
(`qadd`, `qmul`, ...) built from `mkRat` / `Rat.divInt`, which — unlike the
`@[irreducible]` field operations on `ℚ` — evaluate under `decide`.  Bridge
lemmas identify each wrapper with the corresponding Mathlib operation, so
general theorems can use ordinary field reasoning.
-/

namespace Forallpeople

/-- Addition on `ℚ` as a kernel-computable function (same formula as
`Rat.add_def'`). -/
def qadd (a b : ℚ) : ℚ := mkRat (a.num * b.den + b.num * a.den) (a.den * b.den)

/-- Subtraction on `ℚ` as a kernel-computable function (same formula as
`Rat.sub_def'`). -/
def qsub (a b : ℚ) : ℚ := mkRat (a.num * b.den - b.num * a.den) (a.den * b.den)

/-- Multiplication on `ℚ` as a kernel-computable function. -/
def qmul (a b : ℚ) : ℚ := mkRat (a.num * b.num) (a.den * b.den)

/-- Division on `ℚ` as a kernel-computable function (same formula as
`Rat.div_def'`). -/
def qdiv (a b : ℚ) : ℚ := Rat.divInt (a.num * b.den) (a.den * b.num)

/-- Absolute value on `ℚ` as a kernel-computable function. -/
def qabs (a : ℚ) : ℚ := if a.num < 0 then -a else a

/-- Natural-number power on `ℚ`, kernel-computable. -/
def qpow (a : ℚ) : ℕ → ℚ
  | 0 => 1
  | n + 1 => qmul (qpow a n) a

/-- Integer power on `ℚ`, kernel-computable. -/
def qzpow (a : ℚ) : ℤ → ℚ
  | Int.ofNat n => qpow a n
  | Int.negSucc n => qdiv 1 (qpow a (n + 1))

theorem qadd_eq (a b : ℚ) : qadd a b = a + b := (Rat.add_def' a b).symm

theorem qsub_eq (a b : ℚ) : qsub a b = a - b := (Rat.sub_def' a b).symm

theorem qmul_eq (a b : ℚ) : qmul a b = a * b := by
  rw [Rat.mul_def, Rat.normalize_eq_mkRat, qmul]

theorem qdiv_eq (a b : ℚ) : qdiv a b = a / b := by
  rw [Rat.div_def', qdiv]

theorem qabs_eq (a : ℚ) : qabs a = |a| := by
  rcases le_or_lt 0 a with h | h
  · rw [abs_of_nonneg h, qabs, if_neg (by simpa [Rat.num_nonneg] using h)]
  · rw [abs_of_neg h, qabs, if_pos (by simpa [Rat.num_neg] using h)]

theorem qpow_eq (a : ℚ) (n : ℕ) : qpow a n = a ^ n := by
  induction n with
  | zero => rfl
  | succ k ih => rw [qpow, ih, qmul_eq, pow_succ]

theorem qzpow_eq (a : ℚ) (n : ℤ) : qzpow a n = a ^ n := by
  cases n with
  | ofNat k =>
      rw [qzpow, qpow_eq, show (Int.ofNat k : ℤ) = (k : ℤ) from rfl, zpow_natCast]
  | negSucc k =>
      rw [qzpow, qdiv_eq, qpow_eq, zpow_negSucc, one_div]

/-- Dimension vector over the seven SI base dimensions, in the order
`(kg, m, s, A, cd, K, mol)`; components are rationals so that fractional
exponents (roots) are representable. -/
structure Dimensions where
  kg : ℚ
  m : ℚ
  s : ℚ
  A : ℚ
  cd : ℚ
  K : ℚ
  mol : ℚ
deriving DecidableEq

/-- The all-zero (dimensionless) vector. -/
def dimZero : Dimensions := ⟨0, 0, 0, 0, 0, 0, 0⟩

/-- Component-wise sum of dimension vectors (used by multiplication). -/
def dimAdd (a b : Dimensions) : Dimensions :=
  ⟨qadd a.kg b.kg, qadd a.m b.m, qadd a.s b.s, qadd a.A b.A,
   qadd a.cd b.cd, qadd a.K b.K, qadd a.mol b.mol⟩

/-- Component-wise negation of a dimension vector (used by division). -/
def dimNeg (a : Dimensions) : Dimensions :=
  ⟨-a.kg, -a.m, -a.s, -a.A, -a.cd, -a.K, -a.mol⟩

/-- Component-wise scaling of a dimension vector by a rational (used by
exponentiation; the scalar may be fractional). -/
def dimScale (a : Dimensions) (k : ℚ) : Dimensions :=
  ⟨qmul a.kg k, qmul a.m k, qmul a.s k, qmul a.A k,
   qmul a.cd k, qmul a.K k, qmul a.mol k⟩

theorem dimAdd_neg_self (a : Dimensions) : dimAdd a (dimNeg a) = dimZero := by
  simp [dimAdd, dimNeg, dimZero, qadd_eq]

theorem dimScale_zero (a : Dimensions) : dimScale a 0 = dimZero := by
  simp [dimScale, dimZero, qmul_eq]

/-- Modelled from the spec: the `PhysicalQuantity` value type (§3).  The
snapshot has no implementation source; fields follow the spec's data model:
`value` is the magnitude in unscaled SI base units, `dimensions` the
dimension vector, `factor` the display factor, `precision` the number of
decimals to render, `prefixed` the optional explicit prefix override
(empty string = none). -/
structure Physical where
  value : ℚ
  dimensions : Dimensions
  factor : ℚ
  precision : ℕ
  prefixed : String
deriving DecidableEq

/-- An operand of quantity arithmetic: either a bare number or a quantity. -/
inductive Operand where
  | num (x : ℚ)
  | phys (a : Physical)
deriving DecidableEq

/-- The error kinds of §7. -/
inductive Err where
  | DimensionMismatch
  | InvalidOperand
  | UnknownUnit
  | MissingDimension
  | InvalidFactorExpression
deriving DecidableEq

/-- Result of a fallible operation: a value or one of the error kinds. -/
inductive Res (α : Type) where
  | ok (val : α)
  | error (err : Err)
deriving DecidableEq

/-- Modelled from the spec: `add(a, b)` of §4.2 (the implementation's
`Physical.__add__` is not in the snapshot).  Two quantities add only when
their dimension vectors are equal, inheriting dimensions, factor and
precision from the left-hand quantity; a bare number is treated as already
expressed in the quantity's base-unit magnitude. -/
def add : Operand → Operand → Res Operand
  | .num x, .num y => .ok (.num (qadd x y))
  | .num x, .phys b => .ok (.phys { b with value := qadd x b.value })
  | .phys a, .num y => .ok (.phys { a with value := qadd a.value y })
  | .phys a, .phys b =>
      if a.dimensions = b.dimensions then
        .ok (.phys { a with value := qadd a.value b.value })
      else .error .DimensionMismatch

/-- Modelled from the spec: `subtract(a, b)` of §4.2, analogous to `add`. -/
def subtract : Operand → Operand → Res Operand
  | .num x, .num y => .ok (.num (qsub x y))
  | .num x, .phys b => .ok (.phys { b with value := qsub x b.value })
  | .phys a, .num y => .ok (.phys { a with value := qsub a.value y })
  | .phys a, .phys b =>
      if a.dimensions = b.dimensions then
        .ok (.phys { a with value := qsub a.value b.value })
      else .error .DimensionMismatch

/-- Modelled from the spec: `multiply(a, b)` of §4.2.  Dimension vectors
add; a resulting all-zero vector collapses the result to a bare number; a
bare-number operand scales the quantity's magnitude, preserving its
dimensions, factor and precision. -/
def multiply : Operand → Operand → Operand
  | .num x, .num y => .num (qmul x y)
  | .num x, .phys b => .phys { b with value := qmul x b.value }
  | .phys a, .num y => .phys { a with value := qmul a.value y }
  | .phys a, .phys b =>
      let d := dimAdd a.dimensions b.dimensions
      if d = dimZero then .num (qmul a.value b.value)
      else .phys { value := qmul a.value b.value, dimensions := d,
                   factor := qmul a.factor b.factor,
                   precision := a.precision, prefixed := a.prefixed }

/-- Modelled from the spec: `divide(a, b)` of §4.2, using `dimNeg` on the
divisor's dimensions before adding; the same all-zero collapse applies. -/
def divide : Operand → Operand → Operand
  | .num x, .num y => .num (qdiv x y)
  | .num x, .phys b =>
      let d := dimNeg b.dimensions
      if d = dimZero then .num (qdiv x b.value)
      else .phys { value := qdiv x b.value, dimensions := d,
                   factor := qdiv 1 b.factor,
                   precision := b.precision, prefixed := b.prefixed }
  | .phys a, .num y => .phys { a with value := qdiv a.value y }
  | .phys a, .phys b =>
      let d := dimAdd a.dimensions (dimNeg b.dimensions)
      if d = dimZero then .num (qdiv a.value b.value)
      else .phys { value := qdiv a.value b.value, dimensions := d,
                   factor := qdiv a.factor b.factor,
                   precision := a.precision, prefixed := a.prefixed }

/-- Modelled from the spec: `power(a, n)` of §4.2.  The exponent must be a
bare number; raising to a quantity's power fails with `InvalidOperand`.
The magnitude is taken to `magpow a.value n` where `magpow` abstracts the
host language's numeric power (the spec's magnitudes are floating-point, so
the rational model keeps the power operation as a parameter); dimensions
are scaled by `n`, and an all-zero result collapses to a bare number. -/
def power (magpow : ℚ → ℚ → ℚ) : Operand → Operand → Res Operand
  | .num x, .num n => .ok (.num (magpow x n))
  | .num _, .phys _ => .error .InvalidOperand
  | .phys _, .phys _ => .error .InvalidOperand
  | .phys a, .num n =>
      let d := dimScale a.dimensions n
      if d = dimZero then .ok (.num (magpow a.value n))
      else .ok (.phys { value := magpow a.value n, dimensions := d,
                        factor := a.factor,
                        precision := a.precision, prefixed := a.prefixed })

/-- Modelled from the spec: `split(a)` of §4.2 and the README's
`Physical.split`: the pair of the raw value and the one-unit quantity
(dimensions, factor and precision copied, value set to `1`). -/
def split (a : Physical) : ℚ × Physical := (a.value, { a with value := 1 })

/-- Modelled from the spec: `withPrecision(a, n)` of §4.2 — a copy with
only the display precision changed. -/
def withPrecision (a : Physical) (n : ℕ) : Physical := { a with precision := n }

/-- Modelled from the spec: the behaviour of the Python built-in `round`
on a quantity, per the README's `Physical.round` ("identical to self
except with the display precision set to n"). -/
def roundQuantity (a : Physical) (n : ℕ) : Physical := { a with precision := n }

/-- Modelled from the spec: a unit-catalog entry (§3): identifier,
dimension vector, factor, display symbol, default flag. -/
structure Entry where
  name : String
  dims : Dimensions
  factor : ℚ
  symbol : String
  isDefault : Bool
deriving DecidableEq

/-- Modelled from the spec: `convertTo(a, unitSymbol)` of §4.2 (the
README's `Physical.to`): look the identifier up in the active catalog;
`UnknownUnit` if absent, `DimensionMismatch` if the entry's dimensions
differ, otherwise a copy of `a` with the entry's factor (magnitude
unchanged). -/
def convertTo (cat : List Entry) (a : Physical) (unitName : String) : Res Physical :=
  match cat.find? (fun e => e.name == unitName) with
  | none => .error .UnknownUnit
  | some e =>
      if e.dims = a.dimensions then .ok { a with factor := e.factor }
      else .error .DimensionMismatch

/-- The `Factor` field of a configuration record (§6): absent, a plain
number, or an arithmetic-expression string (held as its characters). -/
inductive FactorField where
  | absent
  | ofNum (q : ℚ)
  | ofExpr (chars : List Char)
deriving DecidableEq

/-- Modelled from the spec: one record of a configuration source (§6):
`Dimension` required, `Symbol` optional (defaults to the identifier),
`Factor` optional (default 1), `Default` optional (default false). -/
structure RawRecord where
  name : String
  dimension : Option Dimensions
  factorField : FactorField
  symbol : Option String
  isDefault : Option Bool
deriving DecidableEq

/-- A token of the restricted factor-expression language: a numeric
literal, an operator, or a parenthesis. -/
inductive Tok where
  | lit (q : ℚ)
  | plus
  | minus
  | star
  | slash
  | lpar
  | rpar
deriving DecidableEq

/-- The characters the ScaleExpression Evaluator accepts (§4.3): digits,
decimal points, parentheses and the four operators. -/
def isAllowedChar (c : Char) : Bool :=
  c.isDigit || c = '.' || c = '(' || c = ')' ||
  c = '+' || c = '-' || c = '*' || c = '/'

/-- Value of a digit string as a natural number. -/
def digitsToNat (ds : List Char) : ℕ :=
  ds.foldl (fun a c => 10 * a + (c.toNat - 48)) 0

/-- Numeric literal from integer and fractional digit runs:
`ip.fp = ip + fp / 10^|fp|`. -/
def litValue (ip fp : List Char) : ℚ :=
  qadd (digitsToNat ip) (qdiv (digitsToNat fp) (qpow 10 fp.length))

/-- Modelled from the spec: the tokenizer of the ScaleExpression Evaluator
(§4.3, §9): numeric literals (digits with an optional decimal point) and
the characters `+ - * / ( )`.  Fuel-indexed; `none` on a malformed
literal. -/
def lexTokens : ℕ → List Char → Option (List Tok)
  | 0, _ => none
  | _ + 1, [] => some []
  | fuel + 1, c :: cs =>
      if c = '+' then (lexTokens fuel cs).map (Tok.plus :: ·)
      else if c = '-' then (lexTokens fuel cs).map (Tok.minus :: ·)
      else if c = '*' then (lexTokens fuel cs).map (Tok.star :: ·)
      else if c = '/' then (lexTokens fuel cs).map (Tok.slash :: ·)
      else if c = '(' then (lexTokens fuel cs).map (Tok.lpar :: ·)
      else if c = ')' then (lexTokens fuel cs).map (Tok.rpar :: ·)
      else if c.isDigit || c = '.' then
        let (ip, rest) := (c :: cs).span Char.isDigit
        match rest with
        | '.' :: rest2 =>
            let (fp, rest3) := rest2.span Char.isDigit
            if ip.isEmpty && fp.isEmpty then none
            else (lexTokens fuel rest3).map (Tok.lit (litValue ip fp) :: ·)
        | _ =>
            if ip.isEmpty then none
            else (lexTokens fuel rest).map (Tok.lit (litValue ip []) :: ·)
      else none

mutual

/-- Modelled from the spec: the expression level of the recursive-descent
factor parser (§9): terms joined by `+` and `-`. -/
def parseExpr : ℕ → List Tok → Option (ℚ × List Tok)
  | 0, _ => none
  | fuel + 1, ts =>
      match parseTerm fuel ts with
      | none => none
      | some (v, ts1) => parseExprTail fuel v ts1

/-- Left-associated tail of `+`/`-` chains. -/
def parseExprTail : ℕ → ℚ → List Tok → Option (ℚ × List Tok)
  | 0, _, _ => none
  | fuel + 1, acc, Tok.plus :: ts =>
      match parseTerm fuel ts with
      | none => none
      | some (v, ts1) => parseExprTail fuel (qadd acc v) ts1
  | fuel + 1, acc, Tok.minus :: ts =>
      match parseTerm fuel ts with
      | none => none
      | some (v, ts1) => parseExprTail fuel (qsub acc v) ts1
  | _ + 1, acc, ts => some (acc, ts)

/-- Term level: factors joined by `*` and `/`. -/
def parseTerm : ℕ → List Tok → Option (ℚ × List Tok)
  | 0, _ => none
  | fuel + 1, ts =>
      match parseFact fuel ts with
      | none => none
      | some (v, ts1) => parseTermTail fuel v ts1

/-- Left-associated tail of `*`/`/` chains. -/
def parseTermTail : ℕ → ℚ → List Tok → Option (ℚ × List Tok)
  | 0, _, _ => none
  | fuel + 1, acc, Tok.star :: ts =>
      match parseFact fuel ts with
      | none => none
      | some (v, ts1) => parseTermTail fuel (qmul acc v) ts1
  | fuel + 1, acc, Tok.slash :: ts =>
      match parseFact fuel ts with
      | none => none
      | some (v, ts1) => parseTermTail fuel (qdiv acc v) ts1
  | _ + 1, acc, ts => some (acc, ts)

/-- Factor level: an optionally signed literal or parenthesised
subexpression. -/
def parseFact : ℕ → List Tok → Option (ℚ × List Tok)
  | 0, _ => none
  | fuel + 1, Tok.minus :: ts =>
      match parseFact fuel ts with
      | none => none
      | some (v, ts1) => some (-v, ts1)
  | fuel + 1, Tok.plus :: ts => parseFact fuel ts
  | fuel + 1, Tok.lpar :: ts =>
      match parseExpr fuel ts with
      | none => none
      | some (v, Tok.rpar :: ts2) => some (v, ts2)
      | some (_, _) => none
  | _ + 1, Tok.lit q :: ts => some (q, ts)
  | _ + 1, _ => none

end

/-- Modelled from the spec: the ScaleExpression Evaluator (§4.3, §9).
A string with any character outside digits, `.`, parentheses and
`+ - * /` fails with `InvalidFactorExpression`; otherwise the string is
tokenized and parsed by recursive descent over exact rationals, any
failure again surfacing as `InvalidFactorExpression`. -/
def evalFactor (cs : List Char) : Res ℚ :=
  if cs.all isAllowedChar then
    match lexTokens (cs.length + 1) cs with
    | none => .error .InvalidFactorExpression
    | some ts =>
        match parseExpr (3 * ts.length + 3) ts with
        | some (v, []) => .ok v
        | some (_, _ :: _) => .error .InvalidFactorExpression
        | none => .error .InvalidFactorExpression
  else .error .InvalidFactorExpression

/-- Modelled from the spec: elaboration of one configuration record into a
catalog entry (§4.3, §6).  A missing `Dimension` fails with
`MissingDimension`; a `Factor` expression is evaluated by the
ScaleExpression Evaluator; `Symbol` defaults to the identifier and
`Default` to false. -/
def parseRecord (r : RawRecord) : Res Entry :=
  match r.dimension with
  | none => .error .MissingDimension
  | some d =>
      match
        (match r.factorField with
         | .absent => Res.ok (1 : ℚ)
         | .ofNum q => Res.ok q
         | .ofExpr cs => evalFactor cs) with
      | .error e => .error e
      | .ok f =>
          .ok { name := r.name, dims := d, factor := f,
                symbol := r.symbol.getD r.name,
                isDefault := r.isDefault.getD false }

/-- Modelled from the spec: loading a whole configuration source (§4.3):
records are elaborated in order and the first malformed record fails the
whole load. -/
def parseCatalog : List RawRecord → Res (List Entry)
  | [] => .ok []
  | r :: rs =>
      match parseRecord r with
      | .error e => .error e
      | .ok ent =>
          match parseCatalog rs with
          | .error e => .error e
          | .ok ents => .ok (ent :: ents)

/-- Modelled from the spec: the atomic catalog swap (§5, §7): a successful
load replaces the active catalog wholesale; a failed load leaves the
previously active catalog (or none) in effect. -/
def applyLoad (active : Option (List Entry)) (src : List RawRecord) :
    Option (List Entry) :=
  match parseCatalog src with
  | .ok cat => some cat
  | .error _ => active

/-- The SI magnitude-prefix table (§4.4 Case B): exponent-of-ten (a
multiple of 3 from -24 to 24) paired with the prefix string. -/
def siPrefixes : List (ℤ × String) :=
  [(24, "Y"), (21, "Z"), (18, "E"), (15, "P"), (12, "T"), (9, "G"),
   (6, "M"), (3, "k"), (0, ""), (-3, "m"), (-6, "µ"), (-9, "n"),
   (-12, "p"), (-15, "f"), (-18, "a"), (-21, "z"), (-24, "y")]

/-- The tabled exponents of ten. -/
def prefixExps : List ℤ := siPrefixes.map (fun pe => pe.1)

/-- Modelled from the spec: the auto-prefix selection of §4.4 Case B —
the largest tabled exponent `e` with `|v| / 10^(e·p) ≥ 1`, clamped to the
smallest tabled exponent when no tabled exponent qualifies; a value of
exactly zero keeps no prefix (§4.4 zero handling). -/
def autoExp (v : ℚ) (p : ℕ) : ℤ :=
  if v = 0 then 0
  else (prefixExps.filter (fun e => decide (qzpow 10 (e * p) ≤ qabs v))).foldl max (-24)

/-- The prefix string of a tabled exponent (empty for untabled input). -/
def prefixSym (e : ℤ) : String :=
  ((siPrefixes.find? (fun pe => pe.1 == e)).map (fun pe => pe.2)).getD ""

/-- Decimal digits of a natural number, most significant first
(fuel-indexed helper). -/
def natDigitsAux : ℕ → ℕ → List Char
  | 0, _ => []
  | _ + 1, 0 => []
  | fuel + 1, n => natDigitsAux fuel (n / 10) ++ [Char.ofNat (48 + n % 10)]

/-- Decimal digits of a natural number, `['0']` for zero. -/
def natToChars (n : ℕ) : List Char :=
  if n = 0 then ['0'] else natDigitsAux (n + 1) n

/-- Left-pad a digit run with zeros to the given length. -/
def padZeros (len : ℕ) (cs : List Char) : List Char :=
  List.replicate (len - cs.length) '0' ++ cs

/-- Modelled from the spec: fixed-point decimal rendering of a rational to
`d` decimal places (§4.4), rounding half away from zero (the spec leaves
the half-way rule to the implementation). -/
def formatQ (x : ℚ) (d : ℕ) : String :=
  let scaled : ℕ := x.num.natAbs * 10 ^ d
  let n : ℕ := (2 * scaled + x.den) / (2 * x.den)
  let sign : List Char := if x.num < 0 then ['-'] else []
  let ip := natToChars (n / 10 ^ d)
  if d = 0 then ⟨sign ++ ip⟩
  else ⟨sign ++ ip ++ '.' :: padZeros d (natToChars (n % 10 ^ d))⟩

/-- Superscript form of a decimal digit character. -/
def supDigit (c : Char) : Char :=
  if c = '0' then '⁰' else if c = '1' then '¹' else if c = '2' then '²'
  else if c = '3' then '³' else if c = '4' then '⁴' else if c = '5' then '⁵'
  else if c = '6' then '⁶' else if c = '7' then '⁷' else if c = '8' then '⁸'
  else '⁹'

/-- Superscript rendering of a natural number. -/
def supNatStr (n : ℕ) : String := ⟨(natToChars n).map supDigit⟩

/-- Superscript rendering of an integer, with an explicit minus. -/
def supInt (n : ℤ) : String :=
  (if n < 0 then "⁻" else "") ++ supNatStr n.natAbs

/-- Superscript rendering of a rational exponent (integer ones as plain
superscript integers). -/
def supQ (q : ℚ) : String :=
  if q.den = 1 then supInt q.num else supInt q.num ++ "ᐟ" ++ supNatStr q.den

/-- The seven base-unit symbols paired with a vector's exponents, in
display order. -/
def dimComponents (d : Dimensions) : List (String × ℚ) :=
  [("kg", d.kg), ("m", d.m), ("s", d.s), ("A", d.A),
   ("cd", d.cd), ("K", d.K), ("mol", d.mol)]

/-- Interpose the implicit-multiplication separator. -/
def joinDot : List String → String
  | [] => ""
  | [x] => x
  | x :: xs => x ++ "·" ++ joinDot xs

/-- Modelled from the spec: compound rendering over the base-unit symbols
(§4.4 Case D), each nonzero exponent rendered explicitly (negative ones
included), joined by `·`. -/
def compoundSyms (d : Dimensions) : String :=
  joinDot (((dimComponents d).filter (fun sc => decide (sc.2 ≠ 0))).map
    (fun sc => sc.1 ++ (if sc.2 = 1 then "" else supQ sc.2)))

/-- If exactly one component of the vector is nonzero, that base symbol
and its exponent. -/
def singleDim? (d : Dimensions) : Option (String × ℚ) :=
  match (dimComponents d).filter (fun sc => decide (sc.2 ≠ 0)) with
  | [sc] => some sc
  | _ => none

/-- Modelled from the spec: §4.4 Case B — auto-prefixed display of value
`v` for a symbol of absolute power `p` (`expText` is the rendered
exponent, empty when the exponent is one): the pair of the displayed
numeric value `v / 10^(e·p)` and the rendered string
`prefix‖symbol‖^p`. -/
def caseB (v : ℚ) (p : ℕ) (sym expText : String) (prec : ℕ) : ℚ × String :=
  let e := autoExp v p
  let dv := qdiv v (qzpow 10 (e * p))
  (dv, formatQ dv prec ++ " " ++ prefixSym e ++ sym ++ expText)

/-- Plain (never auto-prefixed) display of value `v` with unit text
`unitText` (§4.4 Cases C and D). -/
def caseCD (v : ℚ) (unitText : String) (prec : ℕ) : ℚ × String :=
  (v, formatQ v prec ++ " " ++ unitText)

/-- Modelled from the spec: display resolution (§4.3) combined with the
formatter (§4.4).  Catalog entries of the quantity's dimensions are
preferred: an exact factor match is the defined unit (auto-prefixed only
for factor 1 with no override), else a flagged default, else a `factor = 1`
derived unit with auto-prefix; with no catalog match, a pure power of one
base unit is auto-prefixed (Case A) when the factor is 1, the exponent is
integral and no override is set, and anything else renders as an unprefixed
compound (Case D).  Returns the displayed numeric value and the rendered
string. -/
def resolveDisplay (cat : List Entry) (a : Physical) : ℚ × String :=
  let dmatches := cat.filter (fun e => decide (e.dims = a.dimensions))
  match dmatches.find? (fun e => decide (e.factor = a.factor)) with
  | some ent =>
      if a.factor = 1 ∧ a.prefixed = "" then
        caseB a.value 1 ent.symbol "" a.precision
      else caseCD (qdiv a.value a.factor) (a.prefixed ++ ent.symbol) a.precision
  | none =>
      match dmatches.find? (fun e => e.isDefault) with
      | some ent => caseCD (qdiv a.value ent.factor) ent.symbol a.precision
      | none =>
          match dmatches.find? (fun e => decide (e.factor = 1)) with
          | some ent =>
              if a.prefixed = "" then caseB a.value 1 ent.symbol "" a.precision
              else caseCD a.value (a.prefixed ++ ent.symbol) a.precision
          | none =>
              match singleDim? a.dimensions with
              | some (sym, q) =>
                  if a.factor = 1 ∧ a.prefixed = "" ∧ q.den = 1 then
                    caseB a.value q.num.natAbs sym
                      (if q = 1 then "" else supQ q) a.precision
                  else caseCD (qdiv a.value a.factor) (compoundSyms a.dimensions)
                    a.precision
              | none =>
                  caseCD (qdiv a.value a.factor) (compoundSyms a.dimensions)
                    a.precision

/-- Modelled from the spec: coercion of a quantity to a plain number
(§4.2): the displayed numeric value — the magnitude after factor and
prefix scaling — not the raw base-unit magnitude. -/
def toFloat (cat : List Entry) (a : Physical) : ℚ := (resolveDisplay cat a).1

/-- The rendered display string of a quantity under the active catalog. -/
def renderQ (cat : List Entry) (a : Physical) : String := (resolveDisplay cat a).2

/-- The metre dimension vector. -/
def dimM : Dimensions := ⟨0, 1, 0, 0, 0, 0, 0⟩

/-- The square-metre dimension vector. -/
def dimM2 : Dimensions := ⟨0, 2, 0, 0, 0, 0, 0⟩

/-- The pascal dimension vector (`kg·m⁻¹·s⁻²`). -/
def dimPa : Dimensions := ⟨1, -1, -2, 0, 0, 0, 0⟩

/-- A catalog defining only the pascal. -/
def catPa : List Entry := [⟨"Pa", dimPa, 1, "Pa", false⟩]

/-- The quantity storing `35000000.0 Pa` (i.e. `35 MPa`). -/
def exPa : Physical := ⟨35000000, dimPa, 1, 3, ""⟩

/-- A sample concrete magnitude-power function for instantiating `power`
(exact on integral exponents that keep the power rational). -/
def magpowSample (x n : ℚ) : ℚ :=
  if n = 0 then 1
  else if 0 ≤ n.num ∧ n.den = 1 then qpow x n.num.natAbs
  else x

theorem le_foldl_max (l : List ℤ) (init : ℤ) : init ≤ l.foldl max init := by
  induction l generalizing init with
  | nil => exact le_refl _
  | cons a t ih => exact le_trans (le_max_left init a) (ih (max init a))

theorem foldl_max_le_of_mem {l : List ℤ} {x : ℤ} (init : ℤ) (hx : x ∈ l) :
    x ≤ l.foldl max init := by
  induction l generalizing init with
  | nil => cases hx
  | cons a t ih =>
      rcases List.mem_cons.mp hx with rfl | hx'
      · exact le_trans (le_max_right init x) (le_foldl_max t (max init x))
      · exact ih (max init a) hx'

theorem foldl_max_eq_init_or_mem (l : List ℤ) (init : ℤ) :
    l.foldl max init = init ∨ l.foldl max init ∈ l := by
  induction l generalizing init with
  | nil => exact Or.inl rfl
  | cons a t ih =>
      rcases ih (max init a) with h | h
      · rcases max_choice init a with hm | hm
        · exact Or.inl (by rw [List.foldl_cons, h, hm])
        · exact Or.inr (by rw [List.foldl_cons, h, hm]; exact List.mem_cons_self a t)
      · exact Or.inr (List.mem_cons_of_mem a h)

/-- Claim C1: for every pair of quantities whose combined dimension vector is
all-zero — `multiply(a,b)` with `b.dimensions = dimNeg a.dimensions`, or
`divide(a,b)` with equal dimensions — the operation returns a bare number
equal to the product (resp. quotient) of the magnitudes, never a quantity
object. -/
theorem claim1_cancellation (a b : Physical) :
    (b.dimensions = dimNeg a.dimensions →
      multiply (.phys a) (.phys b) = .num (qmul a.value b.value)) ∧
    (b.dimensions = a.dimensions →
      divide (.phys a) (.phys b) = .num (qdiv a.value b.value)) := by
  constructor
  · intro h
    simp [multiply, h, dimAdd_neg_self]
  · intro h
    simp [divide, h, dimAdd_neg_self]

/-- Witness for C1 at `2 m` against `3 m⁻¹` (product) and `3 m`
(quotient). -/
theorem claim1_cancellation_witness :
    ((⟨3, ⟨0, -1, 0, 0, 0, 0, 0⟩, 1, 3, ""⟩ : Physical).dimensions
        = dimNeg (⟨2, dimM, 1, 3, ""⟩ : Physical).dimensions ∧
      multiply (.phys ⟨2, dimM, 1, 3, ""⟩) (.phys ⟨3, ⟨0, -1, 0, 0, 0, 0, 0⟩, 1, 3, ""⟩)
        = .num (qmul 2 3)) ∧
    ((⟨4, dimM, 1, 3, ""⟩ : Physical).dimensions
        = (⟨2, dimM, 1, 3, ""⟩ : Physical).dimensions ∧
      divide (.phys ⟨2, dimM, 1, 3, ""⟩) (.phys ⟨4, dimM, 1, 3, ""⟩)
        = .num (qdiv 2 4)) :=
  ⟨⟨by decide,
    (claim1_cancellation ⟨2, dimM, 1, 3, ""⟩ ⟨3, ⟨0, -1, 0, 0, 0, 0, 0⟩, 1, 3, ""⟩).1
      (by decide)⟩,
   ⟨by decide,
    (claim1_cancellation ⟨2, dimM, 1, 3, ""⟩ ⟨4, dimM, 1, 3, ""⟩).2 (by decide)⟩⟩

/-- Claim C3: add/subtract on two quantities succeed exactly when the dimension
vectors are equal (failing with `DimensionMismatch` otherwise), the result
magnitude being the sum/difference with dimensions, factor and precision
inherited from the left-hand quantity; a bare-number operand is treated as
already expressed in the quantity's base-unit magnitude, the quantity's
dimensions, factor and precision unchanged. -/
theorem claim3_add_subtract (a b : Physical) (x : ℚ) :
    (a.dimensions = b.dimensions →
      add (.phys a) (.phys b) = .ok (.phys { a with value := qadd a.value b.value }) ∧
      subtract (.phys a) (.phys b)
        = .ok (.phys { a with value := qsub a.value b.value })) ∧
    (a.dimensions ≠ b.dimensions →
      add (.phys a) (.phys b) = .error .DimensionMismatch ∧
      subtract (.phys a) (.phys b) = .error .DimensionMismatch) ∧
    add (.phys a) (.num x) = .ok (.phys { a with value := qadd a.value x }) ∧
    add (.num x) (.phys a) = .ok (.phys { a with value := qadd x a.value }) ∧
    subtract (.phys a) (.num x) = .ok (.phys { a with value := qsub a.value x }) ∧
    subtract (.num x) (.phys a) = .ok (.phys { a with value := qsub x a.value }) := by
  refine ⟨fun h => ⟨?_, ?_⟩, fun h => ⟨?_, ?_⟩, rfl, rfl, rfl, rfl⟩
  · simp [add, h]
  · simp [subtract, h]
  · simp [add, h]
  · simp [subtract, h]

/-- Witness for C3 at `2 m + 4 m` and the mismatching `2 m + 3 kg`. -/
theorem claim3_add_subtract_witness :
    ((⟨2, dimM, 1, 3, ""⟩ : Physical).dimensions
        = (⟨4, dimM, 1, 3, ""⟩ : Physical).dimensions ∧
      add (.phys ⟨2, dimM, 1, 3, ""⟩) (.phys ⟨4, dimM, 1, 3, ""⟩)
        = .ok (.phys ⟨qadd 2 4, dimM, 1, 3, ""⟩)) ∧
    ((⟨2, dimM, 1, 3, ""⟩ : Physical).dimensions
        ≠ (⟨3, ⟨1, 0, 0, 0, 0, 0, 0⟩, 1, 3, ""⟩ : Physical).dimensions ∧
      add (.phys ⟨2, dimM, 1, 3, ""⟩) (.phys ⟨3, ⟨1, 0, 0, 0, 0, 0, 0⟩, 1, 3, ""⟩)
        = .error .DimensionMismatch) :=
  ⟨⟨by decide,
    ((claim3_add_subtract ⟨2, dimM, 1, 3, ""⟩ ⟨4, dimM, 1, 3, ""⟩ 0).1 (by decide)).1⟩,
   ⟨by decide,
    ((claim3_add_subtract ⟨2, dimM, 1, 3, ""⟩ ⟨3, ⟨1, 0, 0, 0, 0, 0, 0⟩, 1, 3, ""⟩ 0).2.1
      (by decide)).1⟩⟩

/-- Claim C4: `power(a, n)` with a plain rational exponent yields magnitude
`magpow a.value n` and dimensions `dimScale a.dimensions n` (collapsing to
a bare number when the scaled vector is all-zero); raising a quantity to a
quantity's power fails with `InvalidOperand`; and `power(a, 0)` yields the
bare number 1 (`magpow` abstracts the host's numeric power, with its
`x ** 0 = 1` behaviour as a hypothesis). -/
theorem claim4_power (magpow : ℚ → ℚ → ℚ) (a b : Physical) (n : ℚ)
    (h0 : magpow a.value 0 = 1) :
    power magpow (.phys a) (.num n)
      = .ok (if dimScale a.dimensions n = dimZero then .num (magpow a.value n)
             else .phys { value := magpow a.value n,
                          dimensions := dimScale a.dimensions n,
                          factor := a.factor, precision := a.precision,
                          prefixed := a.prefixed }) ∧
    power magpow (.phys a) (.phys b) = .error .InvalidOperand ∧
    power magpow (.phys a) (.num 0) = .ok (.num 1) := by
  refine ⟨?_, rfl, ?_⟩
  · by_cases h : dimScale a.dimensions n = dimZero
    · simp [power, h]
    · simp [power, h]
  · simp [power, dimScale_zero, h0]

/-- Witness for C4 at `2 m` with the sample power function. -/
theorem claim4_power_witness :
    magpowSample (⟨2, dimM, 1, 3, ""⟩ : Physical).value 0 = 1 ∧
    power magpowSample (.phys ⟨2, dimM, 1, 3, ""⟩) (.phys ⟨5, dimM, 1, 3, ""⟩)
      = .error .InvalidOperand ∧
    power magpowSample (.phys ⟨2, dimM, 1, 3, ""⟩) (.num 0) = .ok (.num 1) :=
  ⟨by decide,
   (claim4_power magpowSample ⟨2, dimM, 1, 3, ""⟩ ⟨5, dimM, 1, 3, ""⟩ 0
      (by decide)).2.1,
   (claim4_power magpowSample ⟨2, dimM, 1, 3, ""⟩ ⟨5, dimM, 1, 3, ""⟩ 0
      (by decide)).2.2⟩

/-- Claim C9: `split(a)` returns a value/unit pair whose product reconstructs
`a` itself (hence in particular `a`'s displayed value), the unit quantity
having magnitude one display unit with dimensions, factor and precision
copied from `a`. -/
theorem claim9_split_roundtrip (a : Physical) :
    multiply (.num (split a).1) (.phys (split a).2) = .phys a ∧
    (split a).2.value = 1 ∧
    (split a).2.dimensions = a.dimensions ∧
    (split a).2.factor = a.factor ∧
    (split a).2.precision = a.precision := by
  refine ⟨?_, rfl, rfl, rfl, rfl⟩
  cases a with
  | mk v d f p pfx => simp [multiply, split, qmul_eq]

/-- Claim C10: the built-in `round` on a quantity behaves identically to the
precision-setting method: only the display precision changes; the stored
value, dimensions and factor are untouched. -/
theorem claim10_round (a : Physical) (n : ℕ) :
    roundQuantity a n = withPrecision a n ∧
    (roundQuantity a n).value = a.value ∧
    (roundQuantity a n).dimensions = a.dimensions ∧
    (roundQuantity a n).factor = a.factor ∧
    (roundQuantity a n).precision = n :=
  ⟨rfl, rfl, rfl, rfl, rfl⟩

set_option maxRecDepth 100000

/-- Claim C2: auto-prefix selection picks the largest tabled exponent `e`
(a multiple of 3 in `[-24, 24]`) with `|v| / 10^(e·p) ≥ 1` (clamping to
the smallest tabled exponent otherwise); in particular `1000` metres
renders as `1.000 km`, `999.999` metres keeps no prefix, and
`500000 m` squared renders as `250000.000 km²`, not `0.250 Mm²`. -/
theorem claim2_auto_prefix :
    (∀ (v : ℚ) (p : ℕ), 1 ≤ p → v ≠ 0 →
      autoExp v p ∈ prefixExps ∧
      (qzpow 10 (autoExp v p * p) ≤ qabs v ∨ autoExp v p = -24) ∧
      (∀ e ∈ prefixExps, qzpow 10 (e * p) ≤ qabs v → e ≤ autoExp v p)) ∧
    renderQ [] ⟨1000, dimM, 1, 3, ""⟩ = "1.000 km" ∧
    renderQ [] ⟨mkRat 999999 1000, dimM, 1, 3, ""⟩ = "999.999 m" ∧
    multiply (.phys ⟨500000, dimM, 1, 3, ""⟩) (.phys ⟨500000, dimM, 1, 3, ""⟩)
      = .phys ⟨250000000000, dimM2, 1, 3, ""⟩ ∧
    renderQ [] ⟨250000000000, dimM2, 1, 3, ""⟩ = "250000.000 km²" ∧
    renderQ [] ⟨250000000000, dimM2, 1, 3, ""⟩ ≠ "0.250 Mm²" := by
  refine ⟨?_, by decide, by decide, by decide, by decide, by decide⟩
  intro v p _ hv
  have hform : autoExp v p
      = (prefixExps.filter (fun e => decide (qzpow 10 (e * p) ≤ qabs v))).foldl
          max (-24) := by
    rw [autoExp, if_neg hv]
  refine ⟨?_, ?_, ?_⟩
  · rcases foldl_max_eq_init_or_mem
        (prefixExps.filter (fun e => decide (qzpow 10 (e * p) ≤ qabs v))) (-24) with
      h | h
    · rw [hform, h]; decide
    · rw [hform]; exact List.mem_of_mem_filter h
  · rcases foldl_max_eq_init_or_mem
        (prefixExps.filter (fun e => decide (qzpow 10 (e * p) ≤ qabs v))) (-24) with
      h | h
    · exact Or.inr (by rw [hform, h])
    · refine Or.inl ?_
      rw [hform]
      exact of_decide_eq_true (List.mem_filter.mp h).2
  · intro e he hle
    rw [hform]
    exact foldl_max_le_of_mem (-24)
      (List.mem_filter.mpr ⟨he, decide_eq_true hle⟩)

/-- Witness for C2's general part at `v = 1000`, `p = 1`. -/
theorem claim2_auto_prefix_witness :
    ((1 ≤ 1) ∧ (1000 : ℚ) ≠ 0) ∧
    (autoExp 1000 1 ∈ prefixExps ∧
      (qzpow 10 (autoExp 1000 1 * 1) ≤ qabs 1000 ∨ autoExp 1000 1 = -24) ∧
      (∀ e ∈ prefixExps, qzpow 10 (e * 1) ≤ qabs 1000 → e ≤ autoExp 1000 1)) :=
  ⟨⟨by decide, by decide⟩, claim2_auto_prefix.1 1000 1 (by decide) (by decide)⟩

/-- Claim C5: `convertTo(a, unitSymbol)` fails with `UnknownUnit` when the
identifier is absent from the active catalog, fails with
`DimensionMismatch` when the found entry's dimensions differ from
`a.dimensions`, and otherwise returns a copy of `a` whose factor is the
entry's factor, the magnitude unchanged. -/
theorem claim5_convert (cat : List Entry) (a : Physical) (u : String) :
    (cat.find? (fun e => e.name == u) = none →
      convertTo cat a u = .error .UnknownUnit) ∧
    (∀ ent, cat.find? (fun e => e.name == u) = some ent →
      (ent.dims ≠ a.dimensions → convertTo cat a u = .error .DimensionMismatch) ∧
      (ent.dims = a.dimensions →
        convertTo cat a u = .ok { a with factor := ent.factor })) := by
  constructor
  · intro h
    simp [convertTo, h]
  · intro ent hent
    constructor
    · intro hne
      simp [convertTo, hent, hne]
    · intro heq
      simp [convertTo, hent, heq]

/-- Witness for C5: a one-entry catalog hit with matching dimensions, and
a lookup miss. -/
theorem claim5_convert_witness :
    (([⟨"ft", dimM, mkRat 10000 3048, "ft", false⟩] :
        List Entry).find? (fun e => e.name == "ft")
      = some ⟨"ft", dimM, mkRat 10000 3048, "ft", false⟩ ∧
     (⟨"ft", dimM, mkRat 10000 3048, "ft", false⟩ : Entry).dims
      = (⟨2, dimM, 1, 3, ""⟩ : Physical).dimensions ∧
     convertTo [⟨"ft", dimM, mkRat 10000 3048, "ft", false⟩]
        ⟨2, dimM, 1, 3, ""⟩ "ft"
      = .ok ⟨2, dimM, mkRat 10000 3048, 3, ""⟩) ∧
    (([⟨"ft", dimM, mkRat 10000 3048, "ft", false⟩] :
        List Entry).find? (fun e => e.name == "yd") = none ∧
     convertTo [⟨"ft", dimM, mkRat 10000 3048, "ft", false⟩]
        ⟨2, dimM, 1, 3, ""⟩ "yd"
      = .error .UnknownUnit) :=
  ⟨⟨by decide, by decide,
    ((claim5_convert [⟨"ft", dimM, mkRat 10000 3048, "ft", false⟩]
        ⟨2, dimM, 1, 3, ""⟩ "ft").2
      ⟨"ft", dimM, mkRat 10000 3048, "ft", false⟩ (by decide)).2 (by decide)⟩,
   ⟨by decide,
    (claim5_convert [⟨"ft", dimM, mkRat 10000 3048, "ft", false⟩]
        ⟨2, dimM, 1, 3, ""⟩ "yd").1 (by decide)⟩⟩

theorem parseCatalog_error_of_missingDim {r : RawRecord} {src : List RawRecord}
    (hmem : r ∈ src) (hdim : r.dimension = none) :
    ∃ e, parseCatalog src = .error e := by
  induction src with
  | nil => cases hmem
  | cons x xs ih =>
      rcases List.mem_cons.mp hmem with rfl | hmem'
      · exact ⟨.MissingDimension, by simp [parseCatalog, parseRecord, hdim]⟩
      · obtain ⟨e', he'⟩ := ih hmem'
        cases hx : parseRecord x with
        | error e2 => exact ⟨e2, by simp [parseCatalog, hx]⟩
        | ok ent => exact ⟨e', by simp [parseCatalog, hx, he']⟩

/-- Claim C6: catalog loading is atomic — whenever any record of the source is
malformed the whole load fails and the previously active catalog (or
none) stays in effect unchanged; in particular a record missing its
`Dimension` field fails with `MissingDimension`. -/
theorem claim6_atomic_load (active : Option (List Entry)) (src : List RawRecord)
    (r : RawRecord) :
    (∀ e, parseCatalog src = .error e → applyLoad active src = active) ∧
    (r ∈ src → r.dimension = none → ∃ e, parseCatalog src = .error e) ∧
    (r.dimension = none → parseRecord r = .error .MissingDimension) := by
  refine ⟨?_, ?_, ?_⟩
  · intro e h
    simp [applyLoad, h]
  · intro hmem hdim
    exact parseCatalog_error_of_missingDim hmem hdim
  · intro h
    simp [parseRecord, h]

/-- Witness for C6: a two-record source whose second record lacks its
`Dimension` field leaves the one-entry active catalog untouched. -/
theorem claim6_atomic_load_witness :
    (parseCatalog [⟨"m", some dimM, .absent, none, none⟩,
                   ⟨"bad", none, .absent, none, none⟩]
      = .error .MissingDimension ∧
     applyLoad (some catPa)
        [⟨"m", some dimM, .absent, none, none⟩,
         ⟨"bad", none, .absent, none, none⟩]
      = some catPa) ∧
    ((⟨"bad", none, .absent, none, none⟩ : RawRecord).dimension = none ∧
     parseRecord ⟨"bad", none, .absent, none, none⟩
      = .error .MissingDimension) :=
  ⟨⟨by decide,
    (claim6_atomic_load (some catPa)
        [⟨"m", some dimM, .absent, none, none⟩,
         ⟨"bad", none, .absent, none, none⟩]
        ⟨"bad", none, .absent, none, none⟩).1 .MissingDimension (by decide)⟩,
   ⟨by decide,
    (claim6_atomic_load (some catPa)
        [⟨"m", some dimM, .absent, none, none⟩,
         ⟨"bad", none, .absent, none, none⟩]
        ⟨"bad", none, .absent, none, none⟩).2.2 (by decide)⟩⟩

/-- Claim C7 counterexample: the string `((` contains only allowed characters
(digits, decimal points, parentheses and `+ - * /`), yet it is not
accepted — it fails to parse — so acceptance is not "exactly when" the
character set is clean. -/
theorem claim7_counterexample :
    "((".data.all isAllowedChar = true ∧
    evalFactor "((".data = .error .InvalidFactorExpression := by
  constructor
  · decide
  · decide

/-- Claim C7 amended: a `Factor` expression containing any character outside
digits, decimal points, parentheses and `+ - * /` fails with
`InvalidFactorExpression`; every accepted expression contains only those
characters (but not conversely — see the counterexample); and an accepted
expression evaluates to an exact rational, e.g. `1/0.45359237/9.80665`
evaluates to exactly `10^13 / (45359237 · 980665)`. -/
theorem claim7_factor_guard :
    (∀ cs : List Char, cs.all isAllowedChar = false →
      evalFactor cs = .error .InvalidFactorExpression) ∧
    (∀ (cs : List Char) (q : ℚ), evalFactor cs = .ok q →
      cs.all isAllowedChar = true) ∧
    evalFactor "1/0.45359237/9.80665".data
      = .ok (Rat.divInt (10 ^ 13) (45359237 * 980665)) := by
  refine ⟨?_, ?_, by decide⟩
  · intro cs h
    simp [evalFactor, h]
  · intro cs q h
    cases hall : cs.all isAllowedChar with
    | true => rfl
    | false => simp [evalFactor, hall] at h

/-- Witness for C7's amended guard at the rejected string `2x` and the
accepted string `1/2`. -/
theorem claim7_factor_guard_witness :
    ("2x".data.all isAllowedChar = false ∧
      evalFactor "2x".data = .error .InvalidFactorExpression) ∧
    (evalFactor "1/2".data = .ok (mkRat 1 2) ∧
      "1/2".data.all isAllowedChar = true) :=
  ⟨⟨by decide, claim7_factor_guard.1 "2x".data (by decide)⟩,
   ⟨by decide, claim7_factor_guard.2.1 "1/2".data (mkRat 1 2) (by decide)⟩⟩

/-- Claim C8: coercion of a quantity to a plain number returns the displayed
numeric value — the magnitude after factor and prefix scaling — and not
the raw base-unit magnitude: on the auto-prefixed defined-unit path the
coerced value is `(value / factor) / 10^e` for the chosen prefix exponent
`e`, and the quantity storing `35000000.0 Pa`, displayed `35.000 MPa`,
coerces to `35`, not `35000000`. -/
theorem claim8_float_coercion (cat : List Entry) (a : Physical) (ent : Entry)
    (hfind : (cat.filter (fun e => decide (e.dims = a.dimensions))).find?
        (fun e => decide (e.factor = a.factor)) = some ent)
    (hfa : a.factor = 1) (hpfx : a.prefixed = "") :
    toFloat cat a = qdiv a.value (qzpow 10 (autoExp a.value 1 * 1)) ∧
    toFloat catPa exPa = 35 ∧
    exPa.value = 35000000 ∧
    renderQ catPa exPa = "35.000 MPa" ∧
    toFloat catPa exPa ≠ exPa.value := by
  refine ⟨?_, by decide, by decide, by decide, by decide⟩
  simp only [toFloat, resolveDisplay]
  rw [hfind]
  simp [hfa, hpfx, caseB]

/-- Witness for C8 on the `35 MPa` example itself. -/
theorem claim8_float_coercion_witness :
    ((catPa.filter (fun e => decide (e.dims = exPa.dimensions))).find?
        (fun e => decide (e.factor = exPa.factor))
      = some ⟨"Pa", dimPa, 1, "Pa", false⟩ ∧
     exPa.factor = 1 ∧ exPa.prefixed = "") ∧
    toFloat catPa exPa = qdiv exPa.value (qzpow 10 (autoExp exPa.value 1 * 1)) :=
  ⟨⟨by decide, by decide, by decide⟩,
   (claim8_float_coercion catPa exPa ⟨"Pa", dimPa, 1, "Pa", false⟩
      (by decide) (by decide) (by decide)).1⟩

end Forallpeople
